import Mathlib

/-!
Verification of the early boot bring-up sequence of the bare-metal kernel
tutorial step `10_exceptions_groundwork`.

The repository ships `main.rs` (the bring-up orchestrator), whose control
flow is embedded directly below as an event-trace function.  The leaf
modules it calls (`memory::BumpAllocator`, `sync::NullLock`,
`devices::virt::Console`, `exception`) are declared in `main.rs` but their
sources are not part of the excerpt; those components are modelled from the
specification, and each such definition says so in its doc comment.
-/

/-- Modelled from the spec: §4.2 bump allocator state (the `memory` module is
not under src/; only its caller `main.rs` is).  Attributes are
start address, end address, current cursor and a human-readable tag. -/
structure BumpAllocator where
  start : Nat
  endAddr : Nat
  cursor : Nat
  tag : String
  deriving DecidableEq, Repr

/-- Modelled from the spec: §4.2 constructor `new(start, end, tag)`; the
cursor begins at `start`. -/
def BumpAllocator.new (start endAddr : Nat) (tag : String) : BumpAllocator :=
  { start := start, endAddr := endAddr, cursor := start, tag := tag }

/-- Round `addr` up to the next multiple of `align` (for `align = 0` the
address is returned unchanged). -/
def alignUp (addr align : Nat) : Nat :=
  if align = 0 then addr else ((addr + align - 1) / align) * align

/-- Result of an allocation request: a granted range `[lo, hi)` or an
out-of-memory error. -/
inductive AllocResult
  | ok (lo hi : Nat)
  | outOfMemory
  deriving DecidableEq, Repr

/-- Modelled from the spec: §4.2 `allocate(size, align)`.  Align the current
cursor up to `align`, check `aligned + size ≤ end`; on success advance the
cursor to `aligned + size` and return `[aligned, aligned + size)`; on
failure return out-of-memory without mutating state. -/
def BumpAllocator.allocate (a : BumpAllocator) (size align : Nat) :
    BumpAllocator × AllocResult :=
  if alignUp a.cursor align + size ≤ a.endAddr then
    ({ a with cursor := alignUp a.cursor align + size },
      AllocResult.ok (alignUp a.cursor align) (alignUp a.cursor align + size))
  else
    (a, AllocResult.outOfMemory)

/-- Run a list of `(size, align)` requests in order, collecting the granted
ranges of the successful ones. -/
def runAllocs : BumpAllocator → List (Nat × Nat) → BumpAllocator × List (Nat × Nat)
  | a, [] => (a, [])
  | a, (size, align) :: rest =>
    match a.allocate size align with
    | (a1, AllocResult.ok lo hi) =>
      ((runAllocs a1 rest).1, (lo, hi) :: (runAllocs a1 rest).2)
    | (a1, AllocResult.outOfMemory) => runAllocs a1 rest

theorem le_alignUp (addr align : Nat) : addr ≤ alignUp addr align := by
  unfold alignUp
  split
  · exact Nat.le_refl addr
  · rename_i h
    have hpos : 0 < align := Nat.pos_of_ne_zero h
    have hdm := Nat.div_add_mod (addr + align - 1) align
    have hlt : (addr + align - 1) % align < align := Nat.mod_lt _ hpos
    have hcomm : ((addr + align - 1) / align) * align = align * ((addr + align - 1) / align) :=
      Nat.mul_comm _ _
    omega

theorem allocate_ok_charact (a : BumpAllocator) (size align : Nat)
    (a' : BumpAllocator) (lo hi : Nat)
    (h : a.allocate size align = (a', AllocResult.ok lo hi)) :
    lo = alignUp a.cursor align ∧ hi = lo + size ∧
      a' = { a with cursor := hi } ∧ hi ≤ a.endAddr := by
  unfold BumpAllocator.allocate at h
  split at h
  · rename_i hle
    simp only [Prod.mk.injEq, AllocResult.ok.injEq] at h
    obtain ⟨ha, hlo, hhi⟩ := h
    subst hlo
    subst hhi
    exact ⟨rfl, rfl, ha.symm, hle⟩
  · simp only [Prod.mk.injEq] at h
    exact absurd h.2 (by simp)

theorem allocate_err_charact (a : BumpAllocator) (size align : Nat)
    (a' : BumpAllocator)
    (h : a.allocate size align = (a', AllocResult.outOfMemory)) :
    a' = a ∧ a.endAddr < alignUp a.cursor align + size := by
  unfold BumpAllocator.allocate at h
  split at h
  · simp only [Prod.mk.injEq] at h
    exact absurd h.2 (by simp)
  · rename_i hgt
    simp only [Prod.mk.injEq] at h
    exact ⟨h.1.symm, Nat.lt_of_not_le hgt⟩

theorem allocate_cursor_mono (a : BumpAllocator) (size align : Nat) :
    a.cursor ≤ (a.allocate size align).1.cursor := by
  unfold BumpAllocator.allocate
  split
  · exact Nat.le_trans (le_alignUp a.cursor align) (Nat.le_add_right _ _)
  · exact Nat.le_refl _

theorem allocate_preserves_bounds (a : BumpAllocator) (size align : Nat) :
    (a.allocate size align).1.start = a.start ∧
      (a.allocate size align).1.endAddr = a.endAddr := by
  unfold BumpAllocator.allocate
  split
  · exact ⟨rfl, rfl⟩
  · exact ⟨rfl, rfl⟩

theorem runAllocs_preserves_bounds (reqs : List (Nat × Nat)) (a : BumpAllocator) :
    (runAllocs a reqs).1.start = a.start ∧
      (runAllocs a reqs).1.endAddr = a.endAddr := by
  induction reqs generalizing a with
  | nil => exact ⟨rfl, rfl⟩
  | cons req rest ih =>
    obtain ⟨size, align⟩ := req
    rw [runAllocs]
    split
    · rename_i a1 lo hi heq
      have hb := allocate_preserves_bounds a size align
      rw [heq] at hb
      exact ⟨(ih a1).1.trans hb.1, (ih a1).2.trans hb.2⟩
    · rename_i a1 heq
      have hb := allocate_preserves_bounds a size align
      rw [heq] at hb
      exact ⟨(ih a1).1.trans hb.1, (ih a1).2.trans hb.2⟩

theorem runAllocs_cursor_mono (reqs : List (Nat × Nat)) (a : BumpAllocator) :
    a.cursor ≤ (runAllocs a reqs).1.cursor := by
  induction reqs generalizing a with
  | nil => exact Nat.le_refl _
  | cons req rest ih =>
    obtain ⟨size, align⟩ := req
    rw [runAllocs]
    split
    · rename_i a1 lo hi heq
      have hm := allocate_cursor_mono a size align
      rw [heq] at hm
      exact Nat.le_trans hm (ih a1)
    · rename_i a1 heq
      have hm := allocate_cursor_mono a size align
      rw [heq] at hm
      exact Nat.le_trans hm (ih a1)

theorem runAllocs_ranges (reqs : List (Nat × Nat)) (a : BumpAllocator) :
    ∀ r ∈ (runAllocs a reqs).2,
      a.cursor ≤ r.1 ∧ r.1 ≤ r.2 ∧ r.2 ≤ (runAllocs a reqs).1.cursor ∧
        r.2 ≤ a.endAddr := by
  induction reqs generalizing a with
  | nil =>
    intro r hr
    simp [runAllocs] at hr
  | cons req rest ih =>
    obtain ⟨size, align⟩ := req
    intro r hr
    rw [runAllocs] at hr ⊢
    revert hr
    split
    · rename_i a1 lo hi heq
      intro hr
      obtain ⟨hlo, hhi, ha1, hend⟩ := allocate_ok_charact a size align a1 lo hi heq
      have hc : a1.cursor = hi := by rw [ha1]
      have he : a1.endAddr = a.endAddr := by rw [ha1]
      have hmono := runAllocs_cursor_mono rest a1
      have hcur := le_alignUp a.cursor align
      simp only [List.mem_cons] at hr
      rcases hr with hr | hr
      · subst hr
        refine ⟨by omega, by omega, ?_, by omega⟩
        show hi ≤ (runAllocs a1 rest).1.cursor
        omega
      · have hrec := ih a1 r hr
        have h4 : r.2 ≤ a1.endAddr := hrec.2.2.2
        exact ⟨by omega, hrec.2.1, hrec.2.2.1, by omega⟩
    · rename_i a1 heq
      intro hr
      obtain ⟨ha1, _⟩ := allocate_err_charact a size align a1 heq
      rw [ha1] at hr ⊢
      exact ih a r hr

/-- Claim C3: for every (size, align) request to a BumpAllocator over
[start, end): when allocate succeeds it returns the range
[aligned_cursor, aligned_cursor + size) where aligned_cursor is the previous
cursor rounded up to align, advances the cursor to aligned_cursor + size,
the returned range lies within [start, end), and it is disjoint from every
range returned by any earlier successful allocate on the same allocator. -/
theorem allocate_correct_after_run (s e : Nat) (t : String)
    (reqs : List (Nat × Nat)) (size align : Nat)
    (a : BumpAllocator) (prev : List (Nat × Nat))
    (a' : BumpAllocator) (lo hi : Nat)
    (hrun : runAllocs (BumpAllocator.new s e t) reqs = (a, prev))
    (hok : a.allocate size align = (a', AllocResult.ok lo hi)) :
    lo = alignUp a.cursor align ∧ hi = lo + size ∧ a'.cursor = hi ∧
      s ≤ lo ∧ hi ≤ e ∧
      (∀ r ∈ prev, r.2 ≤ lo) ∧
      (∀ r ∈ prev, ∀ x : Nat, r.1 ≤ x → x < r.2 → ¬(lo ≤ x ∧ x < hi)) := by
  have h1 := runAllocs_preserves_bounds reqs (BumpAllocator.new s e t)
  have h2 := runAllocs_cursor_mono reqs (BumpAllocator.new s e t)
  have h3 := runAllocs_ranges reqs (BumpAllocator.new s e t)
  rw [hrun] at h1 h2 h3
  have hstart : a.start = s := h1.1
  have hendA : a.endAddr = e := h1.2
  have hcurs : s ≤ a.cursor := h2
  have halign := le_alignUp a.cursor align
  obtain ⟨hlo, hhi, ha', hend⟩ := allocate_ok_charact a size align a' lo hi hok
  have hprev : ∀ r ∈ prev, r.2 ≤ a.cursor := by
    intro r hr
    exact (h3 r hr).2.2.1
  refine ⟨hlo, hhi, by rw [ha'], by omega, by omega, ?_, ?_⟩
  · intro r hr
    have := hprev r hr
    omega
  · intro r hr x hx1 hx2 hx3
    have := hprev r hr
    omega

/-- Witness for C3 at a concrete run: one prior request (8, 8) on a fresh
allocator over [4096, 4112), then a successful allocate(4, 4). -/
theorem allocate_correct_after_run_witness :
    (4104 : Nat) = alignUp 4104 4 ∧ (4108 : Nat) = 4104 + 4 ∧ (4108 : Nat) = 4108 ∧
      (4096 : Nat) ≤ 4104 ∧ (4108 : Nat) ≤ 4112 ∧
      (∀ r ∈ [((4096 : Nat), (4104 : Nat))], r.2 ≤ 4104) ∧
      (∀ r ∈ [((4096 : Nat), (4104 : Nat))], ∀ x : Nat,
          r.1 ≤ x → x < r.2 → ¬(4104 ≤ x ∧ x < 4108)) :=
  allocate_correct_after_run 4096 4112 "w" [(8, 8)] 4 4
    { start := 4096, endAddr := 4112, cursor := 4104, tag := "w" } [(4096, 4104)]
    { start := 4096, endAddr := 4112, cursor := 4108, tag := "w" } 4104 4108
    (by decide) (by decide)

/-- Claim C4: when a BumpAllocator allocate request fails
(aligned_cursor + size > end), it returns OutOfMemory and the allocator's
state is exactly unchanged; concretely, for
BumpAllocator::new(0x1000, 0x1010, "test") after allocate(8, 8) twice,
allocate(1, 1) returns OutOfMemory with the cursor remaining 0x1010. -/
theorem allocate_oom_noop :
    (∀ (a : BumpAllocator) (size align : Nat),
        a.endAddr < alignUp a.cursor align + size →
          a.allocate size align = (a, AllocResult.outOfMemory)) ∧
      (BumpAllocator.new 4096 4112 "test").allocate 8 8 =
        ({ start := 4096, endAddr := 4112, cursor := 4104, tag := "test" },
          AllocResult.ok 4096 4104) ∧
      ({ start := 4096, endAddr := 4112, cursor := 4104, tag := "test" } :
          BumpAllocator).allocate 8 8 =
        ({ start := 4096, endAddr := 4112, cursor := 4112, tag := "test" },
          AllocResult.ok 4104 4112) ∧
      ({ start := 4096, endAddr := 4112, cursor := 4112, tag := "test" } :
          BumpAllocator).allocate 1 1 =
        ({ start := 4096, endAddr := 4112, cursor := 4112, tag := "test" },
          AllocResult.outOfMemory) := by
  refine ⟨?_, by decide, by decide, by decide⟩
  intro a size align h
  unfold BumpAllocator.allocate
  split
  · rename_i hle
    exact absurd hle (Nat.not_le_of_lt h)
  · rfl

/-- Witness for C4 at the concrete scenario's final request: the exhausted
allocator rejects allocate(1, 1) without mutating state. -/
theorem allocate_oom_noop_witness :
    ({ start := 4096, endAddr := 4112, cursor := 4112, tag := "test" } :
        BumpAllocator).allocate 1 1 =
      ({ start := 4096, endAddr := 4112, cursor := 4112, tag := "test" },
        AllocResult.outOfMemory) :=
  allocate_oom_noop.1
    { start := 4096, endAddr := 4112, cursor := 4112, tag := "test" } 1 1 (by decide)

/-- Modelled from the spec: §4.3 console abstraction state (the
`devices::virt::Console` module is not under src/; only its caller
`main.rs` is).  The active backend is identified by an epoch counter that
increments at each replace; `buffer` holds characters accepted by the
active backend but not yet physically emitted; `emitted` is the total
physically emitted stream, each character tagged with the epoch of the
backend that emitted it. -/
structure ConsoleState where
  epoch : Nat
  buffer : List Char
  emitted : List (Nat × Char)
  deriving DecidableEq, Repr

def ConsoleState.new : ConsoleState :=
  { epoch := 0, buffer := [], emitted := [] }

/-- Modelled from the spec: §4.3 `write_char(c)` accepts a character into
the active backend, in order. -/
def ConsoleState.writeChar (s : ConsoleState) (c : Char) : ConsoleState :=
  { s with buffer := s.buffer ++ [c] }

/-- Modelled from the spec: §4.3 `flush()` suspends until all previously
accepted output has been physically emitted. -/
def ConsoleState.flush (s : ConsoleState) : ConsoleState :=
  { epoch := s.epoch, buffer := [],
    emitted := s.emitted ++ s.buffer.map (fun c => (s.epoch, c)) }

/-- Modelled from the spec: §4.3 `replace_with(new_backend)` calls `flush()`
on the currently active backend and only then swaps in the new backend
(the fresh epoch starts with an empty buffer). -/
def ConsoleState.replaceWith (s : ConsoleState) : ConsoleState :=
  { epoch := s.flush.epoch + 1, buffer := s.flush.buffer,
    emitted := s.flush.emitted }

/-- A console operation issued by a client: write a character to the active
backend, or replace the active backend. -/
inductive ConsoleOp
  | write (c : Char)
  | replace
  deriving DecidableEq, Repr

def runOps : ConsoleState → List ConsoleOp → ConsoleState
  | s, [] => s
  | s, ConsoleOp.write c :: rest => runOps (s.writeChar c) rest
  | s, ConsoleOp.replace :: rest => runOps s.replaceWith rest

/-- The characters a list of operations writes, each tagged with the epoch
of the backend that accepts it (the first backend having epoch `e`):
the concatenation of each backend's accepted writes in call order. -/
def taggedWrites : Nat → List ConsoleOp → List (Nat × Char)
  | _, [] => []
  | e, ConsoleOp.write c :: rest => (e, c) :: taggedWrites e rest
  | e, ConsoleOp.replace :: rest => taggedWrites (e + 1) rest

theorem runOps_flush_emitted (ops : List ConsoleOp) (s : ConsoleState) :
    (runOps s ops).flush.emitted =
      s.emitted ++ s.buffer.map (fun c => (s.epoch, c)) ++
        taggedWrites s.epoch ops := by
  induction ops generalizing s with
  | nil => simp [runOps, taggedWrites, ConsoleState.flush]
  | cons op rest ih =>
    cases op with
    | write c =>
      rw [runOps, ih]
      simp [ConsoleState.writeChar, taggedWrites]
    | replace =>
      rw [runOps, ih]
      simp [ConsoleState.replaceWith, ConsoleState.flush, taggedWrites]

theorem runOps_emitted_mono (ops : List ConsoleOp) (s : ConsoleState) :
    ∃ t, (runOps s ops).emitted = s.emitted ++ t := by
  induction ops generalizing s with
  | nil => exact ⟨[], by simp [runOps]⟩
  | cons op rest ih =>
    cases op with
    | write c =>
      obtain ⟨t, ht⟩ := ih (s.writeChar c)
      exact ⟨t, by rw [runOps, ht]; simp [ConsoleState.writeChar]⟩
    | replace =>
      obtain ⟨t, ht⟩ := ih s.replaceWith
      refine ⟨s.buffer.map (fun c => (s.epoch, c)) ++ t, ?_⟩
      rw [runOps, ht]
      simp [ConsoleState.replaceWith, ConsoleState.flush]

theorem flush_emitted_extends (s : ConsoleState) :
    s.flush.emitted = s.emitted ++ s.buffer.map (fun c => (s.epoch, c)) := rfl

/-- Claim C5: for every call to the console's replace_with, flush() is
invoked on the currently active backend before the new backend is swapped
in: replace_with leaves no buffered output behind (the old backend's buffer
is drained into the emitted stream, tagged with the old epoch, before the
epoch changes), and in any sequence of writes and replace_with calls the
total emitted character stream equals the concatenation of each backend's
accepted writes in call order, the stream emitted so far at every point
being a prefix of that concatenation (so no character of a later backend
is emitted before all characters accepted by an earlier backend). -/
theorem console_flush_before_swap :
    (∀ s : ConsoleState,
        s.replaceWith.emitted = s.emitted ++ s.buffer.map (fun c => (s.epoch, c)) ∧
          s.replaceWith.buffer = [] ∧ s.replaceWith.epoch = s.epoch + 1) ∧
      ∀ ops : List ConsoleOp,
        (runOps ConsoleState.new ops).flush.emitted = taggedWrites 0 ops ∧
          ∃ t, taggedWrites 0 ops = (runOps ConsoleState.new ops).emitted ++ t := by
  constructor
  · intro s
    exact ⟨rfl, rfl, rfl⟩
  · intro ops
    have h : (runOps ConsoleState.new ops).flush.emitted = taggedWrites 0 ops := by
      have := runOps_flush_emitted ops ConsoleState.new
      simpa [ConsoleState.new] using this
    have h2 : (runOps ConsoleState.new ops).flush.emitted =
        (runOps ConsoleState.new ops).emitted ++
          (runOps ConsoleState.new ops).buffer.map
            (fun c => ((runOps ConsoleState.new ops).epoch, c)) :=
      flush_emitted_extends _
    refine ⟨h, ⟨(runOps ConsoleState.new ops).buffer.map
        (fun c => ((runOps ConsoleState.new ops).epoch, c)), ?_⟩⟩
    rw [← h]
    exact h2

/-- Claim C9: console flush() is idempotent: a second flush() immediately
after a flush(), with no intervening writes, emits no additional characters
and does not fail (it is the identity on the flushed state). -/
theorem flush_idempotent :
    ∀ s : ConsoleState,
      s.flush.flush = s.flush ∧ s.flush.flush.emitted = s.flush.emitted := by
  intro s
  constructor
  · simp [ConsoleState.flush]
  · simp [ConsoleState.flush]

/-- A console backend of the tutorial kernel. -/
inductive Backend
  | miniUart
  | pl011Uart
  deriving DecidableEq, Repr

/-- Observable steps of `kernel_entry` in `main.rs`, in program order. -/
inductive Event
  | gpioNew
  | miniUartNew
  | miniUartInit
  | consoleReplaceWith (b : Backend)
  | print (s : String)
  | getc
  | mmuInit
  | printLayout
  | videocoreMboxNew
  | pl011UartNew
  | consoleFlush
  | pl011UartInit
  | setVbarEl1Checked
  | readVolatileBigAddr
  | commandPrompt
  deriving DecidableEq, Repr

/-- The labelled recoverable block of `kernel_entry` (main.rs lines
102-174).  `mboxOk` is the outcome of `hw::VideocoreMbox::new`, `pl011Ok`
of `pl011_uart.init`, and `vbarOk` of
`exception::set_vbar_el1_checked`; an `Err`/`false` outcome of the mailbox
construction or of the vector install breaks out of the block. -/
def initBlock (mboxOk pl011Ok vbarOk : Bool) : List Event :=
  Event.videocoreMboxNew ::
    (if mboxOk then
      [Event.print "[3] Videocore Mailbox set up (DMA mem heap allocation successful).",
       Event.pl011UartNew, Event.consoleFlush, Event.pl011UartInit] ++
        (if pl011Ok then
          [Event.consoleReplaceWith Backend.pl011Uart,
           Event.print "[4] PL011 UART online. Output switched to it."]
         else
          [Event.print "[4][Error] PL011 UART init failed. Trying to continue with MiniUart."]) ++
        [Event.setVbarEl1Checked] ++
        (if vbarOk then
          [Event.print "[5] Exception vectors are set up.",
           Event.readVolatileBigAddr,
           Event.print "[i] Whoa! We recovered from an exception."]
         else
          [Event.print "[5][Error] Error setting exception vectors. Aborting."])
     else
      [Event.print "[3][Error] Could not set up Videocore Mailbox. Aborting."])

/-- The event trace of `kernel_entry` in `main.rs`, parameterized by the
outcomes of the three fallible steps inside the recoverable block. -/
def kernelEntry (mboxOk pl011Ok vbarOk : Bool) : List Event :=
  [Event.gpioNew, Event.miniUartNew, Event.miniUartInit,
   Event.consoleReplaceWith Backend.miniUart,
   Event.print "\n[0] MiniUart online.",
   Event.print "[1] Press a key to continue booting... ",
   Event.getc,
   Event.print "Greetings fellow Rustacean!",
   Event.print "[2] Switching MMU on now... ",
   Event.mmuInit,
   Event.print "MMU online.",
   Event.printLayout] ++
    initBlock mboxOk pl011Ok vbarOk ++ [Event.commandPrompt]

/-- Claim C2: for every combination of failures among the recoverable
bring-up steps, the orchestrator does not halt: each failure is logged with
its [Error]-tagged line and the trace still ends at the command prompt; a
PL011 UART init failure alone does not exit the recoverable block — no
console replacement to the PL011 backend happens, and the vector-install
step is still attempted. -/
theorem kernelEntry_always_reaches_prompt :
    (∀ m p v : Bool, (kernelEntry m p v).getLast? = some Event.commandPrompt) ∧
      (∀ p v : Bool,
        Event.print "[3][Error] Could not set up Videocore Mailbox. Aborting." ∈
          kernelEntry false p v) ∧
      (∀ v : Bool,
        Event.print "[4][Error] PL011 UART init failed. Trying to continue with MiniUart." ∈
            kernelEntry true false v ∧
          (kernelEntry true false v).count (Event.consoleReplaceWith Backend.pl011Uart) = 0 ∧
          Event.setVbarEl1Checked ∈ kernelEntry true false v) ∧
      ∀ p : Bool,
        Event.print "[5][Error] Error setting exception vectors. Aborting." ∈
          kernelEntry true p false := by
  refine ⟨by decide, by decide, by decide, by decide⟩

/-- Claim C7: the deliberate fault-injection access (the volatile read of
the unmapped 3 GiB address) appears in the trace exactly when both the
mailbox construction and the vector-table installation succeeded; a failure
of either breaks out of the recoverable block and the faulting access is
skipped. -/
theorem faultRead_requires_mbox_and_vectors :
    ∀ m p v : Bool,
      (Event.readVolatileBigAddr ∈ kernelEntry m p v) ↔ (m = true ∧ v = true) := by
  decide

/-- Claim C10: on the boot path, `kernel_entry` explicitly flushes the
active console strictly before the PL011 backend's init call (which rewires
the shared GPIO pins), not merely before the subsequent replace_with. -/
theorem consoleFlush_before_pl011_init :
    ∀ m p v : Bool,
      Event.pl011UartInit ∈ kernelEntry m p v →
        Event.consoleFlush ∈ kernelEntry m p v ∧
          (kernelEntry m p v).indexOf Event.consoleFlush <
            (kernelEntry m p v).indexOf Event.pl011UartInit := by
  decide

/-- Witness for C10: in the all-success run the flush event precedes the
PL011 init event. -/
theorem consoleFlush_before_pl011_init_witness :
    Event.consoleFlush ∈ kernelEntry true true true ∧
      (kernelEntry true true true).indexOf Event.consoleFlush <
        (kernelEntry true true true).indexOf Event.pl011UartInit :=
  consoleFlush_before_pl011_init true true true (by decide)

/-- Modelled from the spec: §4.4 the trapped context seen by the exception
handler (the `exception` module and its vector/handler code are not under
src/).  `pc` is the program counter of the faulting instruction, `gpr` the
general-purpose registers, `mem` the data memory. -/
structure CpuContext where
  pc : Nat
  gpr : List Nat
  mem : List Nat
  deriving DecidableEq, Repr

/-- The class of a trapped synchronous fault, as the handler distinguishes
it: the single recoverable class (translation fault on a data read to an
unmapped address) versus everything else. -/
inductive FaultClass
  | translationFaultDataRead
  | other
  deriving DecidableEq, Repr

/-- AArch64 instruction size in bytes: advancing the program counter past
the faulting instruction means adding this amount. -/
def instrSize : Nat := 4

/-- Modelled from the spec: §4.4 `handle_synchronous_fault(record)`: for the
recoverable class the handler advances the trapped context's program
counter past the faulting instruction and resumes (the faulting read's
result is discarded, so registers and memory are untouched); any other
class is unrecoverable and halts (`none`). -/
def handleSync : FaultClass → CpuContext → Option CpuContext
  | FaultClass.translationFaultDataRead, ctx =>
    some { ctx with pc := ctx.pc + instrSize }
  | FaultClass.other, _ => none

/-- Claim C1: for the recoverable fault class taken while vectors are
installed, the handler does not terminate: it resumes at the next
instruction (pc advanced past the faulting one) with registers and memory
unchanged (the read's result is discarded); and in the kernel self-test the
"Whoa! We recovered" print is the event immediately after the deliberate
unmapped read in every trace in which that read executes. -/
theorem fault_recovery_resumes_after_fault :
    (∀ ctx : CpuContext,
        handleSync FaultClass.translationFaultDataRead ctx =
          some { pc := ctx.pc + instrSize, gpr := ctx.gpr, mem := ctx.mem }) ∧
      ∀ m p v : Bool,
        Event.readVolatileBigAddr ∈ kernelEntry m p v →
          Event.print "[i] Whoa! We recovered from an exception." ∈ kernelEntry m p v ∧
            (kernelEntry m p v).indexOf
                (Event.print "[i] Whoa! We recovered from an exception.") =
              (kernelEntry m p v).indexOf Event.readVolatileBigAddr + 1 := by
  refine ⟨fun ctx => rfl, by decide⟩

/-- Witness for C1: the recovery print directly follows the faulting read
in the all-success trace, and the handler advances a concrete context by
one instruction. -/
theorem fault_recovery_resumes_after_fault_witness :
    Event.print "[i] Whoa! We recovered from an exception." ∈ kernelEntry true true true ∧
      (kernelEntry true true true).indexOf
          (Event.print "[i] Whoa! We recovered from an exception.") =
        (kernelEntry true true true).indexOf Event.readVolatileBigAddr + 1 :=
  fault_recovery_resumes_after_fault.2 true true true (by decide)

/-- Modelled from the spec: §9 the exact alignment for the vector-base
register is an architecture configuration constant; for AArch64's VBAR_EL1
the vector table base must be 2 KiB aligned (11 low bits zero). -/
def vbarAlignment : Nat := 2048

/-- Modelled from the spec: privileged register state touched by the
exception subsystem: the vector-base register plus the remaining (opaque)
registers. -/
structure RegState where
  vbarEl1 : Nat
  others : List Nat
  deriving DecidableEq, Repr

/-- Modelled from the spec: §4.4 `install_vector_table(base_address)`
(`exception::set_vbar_el1_checked`; the `exception` module is not under
src/): validate the alignment constraint of the vector-base register;
on misalignment return false without writing any register; on success
write the base into the vector-base register and return true. -/
def setVbarEl1Checked (base : Nat) (r : RegState) : Bool × RegState :=
  if base % vbarAlignment = 0 then (true, { r with vbarEl1 := base })
  else (false, r)

/-- Claim C6: install_vector_table called with a misaligned base returns
false rather than panicking and leaves the vector-base register and all
other register state unmutated; it returns true only for a correctly
aligned base. -/
theorem setVbarEl1Checked_rejects_misaligned :
    (∀ (base : Nat) (r : RegState),
        base % vbarAlignment ≠ 0 → setVbarEl1Checked base r = (false, r)) ∧
      ∀ (base : Nat) (r : RegState),
        (setVbarEl1Checked base r).1 = true ↔ base % vbarAlignment = 0 := by
  constructor
  · intro base r h
    unfold setVbarEl1Checked
    rw [if_neg h]
  · intro base r
    unfold setVbarEl1Checked
    split
    · rename_i h
      exact ⟨fun _ => h, fun _ => rfl⟩
    · rename_i h
      exact ⟨fun hc => absurd hc (by simp), fun hc => absurd hc h⟩

/-- Witness for C6: installing at the misaligned base 4 leaves the register
state untouched and reports failure. -/
theorem setVbarEl1Checked_rejects_misaligned_witness :
    setVbarEl1Checked 4 { vbarEl1 := 0, others := [7] } =
      (false, { vbarEl1 := 0, others := [7] }) :=
  setVbarEl1Checked_rejects_misaligned.1 4 { vbarEl1 := 0, others := [7] } (by decide)

/-- Modelled from the spec: §4.1 the synchronization primitive
(`sync::NullLock`; the `sync` module is not under src/): a single-core
mutual-exclusion cell.  `locked` records whether a scoped acquisition is
currently active. -/
structure NullLock (T : Type) where
  locked : Bool
  value : T
  deriving DecidableEq, Repr

def NullLock.new {T : Type} (v : T) : NullLock T :=
  { locked := false, value := v }

/-- Modelled from the spec: §4.1 acquiring the cell for a scoped operation:
re-entrant acquisition (while `locked` is set) is detected as a fatal
error (`none`) rather than handing out a second overlapping access. -/
def NullLock.acquire {T : Type} (l : NullLock T) : Option (NullLock T) :=
  if l.locked then none else some { l with locked := true }

/-- Modelled from the spec: §4.1 `with_exclusive_access(op)`: acquire, run
the scoped operation on the protected value, release. -/
def NullLock.lock {T R : Type} (l : NullLock T) (op : T → T × R) :
    Option (NullLock T × R) :=
  match l.acquire with
  | none => none
  | some held =>
    some ({ locked := false, value := (op held.value).1 }, (op held.value).2)

/-- Claim C8: the synchronization primitive provides semantic mutual
exclusion on a single execution context: while a scoped acquisition is
active (the state handed to the operation has `locked` set), any re-entrant
acquisition — and hence any nested scoped access — is detected as a fatal
error rather than silently handing out a second overlapping access; an
acquisition fails exactly when one is already active. -/
theorem nullLock_detects_reentrancy :
    (∀ (T : Type) (l held : NullLock T), l.acquire = some held →
        held.locked = true ∧ held.acquire = none ∧
          ∀ (R : Type) (op : T → T × R), held.lock op = none) ∧
      ∀ (T : Type) (l : NullLock T), l.acquire = none ↔ l.locked = true := by
  constructor
  · intro T l held h
    unfold NullLock.acquire at h
    split at h
    · exact absurd h (by simp)
    · rename_i hnl
      simp only [Option.some.injEq] at h
      have hlocked : held.locked = true := by rw [← h]
      refine ⟨hlocked, ?_, ?_⟩
      · unfold NullLock.acquire
        rw [if_pos hlocked]
      · intro R op
        unfold NullLock.lock NullLock.acquire
        rw [if_pos hlocked]
  · intro T l
    unfold NullLock.acquire
    split
    · rename_i h
      exact ⟨fun _ => by simpa using h, fun _ => rfl⟩
    · rename_i h
      constructor
      · intro hc
        exact absurd hc (by simp)
      · intro hc
        exact absurd hc (by simpa using h)

/-- Witness for C8: after acquiring the fresh lock over the value 0, the
held state refuses a second acquisition and a nested scoped access fails. -/
theorem nullLock_detects_reentrancy_witness :
    ({ locked := true, value := 0 } : NullLock Nat).locked = true ∧
      ({ locked := true, value := 0 } : NullLock Nat).acquire = none ∧
      ∀ (R : Type) (op : Nat → Nat × R),
        ({ locked := true, value := 0 } : NullLock Nat).lock op = none :=
  nullLock_detects_reentrancy.1 Nat (NullLock.new 0)
    { locked := true, value := 0 } (by decide)
